import Mathlib

/-!
Verification of the request-dispatch engine of the `@cloud-cli/proxy`
HTTP(S) reverse proxy (source: `src/index.ts`).

Strings are modelled as lists of characters (`Str`), so that the string
operations the source uses (`split`, `slice`, `startsWith`, `replace`,
`trim`, ...) can be given as executable structural recursions and reasoned
about by induction.  Each definition mirrors one function or code block of
the source; the corresponding source location is given in its doc comment.
-/

/-- A string, modelled as its list of characters. -/
abbrev Str := List Char

/-- Coerce a Lean string literal into the `Str` model. -/
def str (s : String) : Str := s.data

/-- Model of JavaScript `s.split(sep)` for a single-character separator:
`''.split('.') = ['']`, `'a.'.split('.') = ['a','']`. -/
def splitOnChar (sep : Char) : Str → List Str
  | [] => [[]]
  | c :: rest =>
    if c = sep then [] :: splitOnChar sep rest
    else
      match splitOnChar sep rest with
      | [] => [[c]]
      | s :: ss => (c :: s) :: ss

/-- Model of `s.split('.')`, as used for hosts and SNI names in the source. -/
def splitDot (s : Str) : List Str := splitOnChar '.' s

/-- Model of JavaScript `parts.join('.')`. -/
def joinDot : List Str → Str
  | [] => []
  | [p] => p
  | p :: q :: ps => p ++ '.' :: joinDot (q :: ps)

/-- Model of `host.split('.').slice(1).join('.')` — the parent domain of a host
(`findProxyEntry`, src/index.ts:384). -/
def parentDomain (h : Str) : Str := joinDot ((splitDot h).drop 1)

theorem splitOnChar_ne_nil (sep : Char) (s : Str) : splitOnChar sep s ≠ [] := by
  cases s with
  | nil => simp [splitOnChar]
  | cons c rest =>
    simp only [splitOnChar]
    by_cases hc : c = sep
    · simp [hc]
    · simp only [hc, if_false]
      cases splitOnChar sep rest <;> simp

theorem joinDot_splitOnDot (s : Str) : joinDot (splitDot s) = s := by
  induction s with
  | nil => rfl
  | cons c rest ih =>
    cases hsp : splitOnChar '.' rest with
    | nil => exact absurd hsp (splitOnChar_ne_nil '.' rest)
    | cons p ps =>
      by_cases hc : c = '.'
      · subst hc
        simp only [splitDot, splitOnChar, if_pos rfl, hsp]
        show joinDot ([] :: p :: ps) = '.' :: rest
        have : joinDot (p :: ps) = rest := by
          rw [← hsp]; exact ih
        simp [joinDot, this]
      · simp only [splitDot, splitOnChar, hc, if_false, hsp]
        cases ps with
        | nil =>
          show joinDot [c :: p] = c :: rest
          have : joinDot [p] = rest := by rw [← hsp]; exact ih
          simpa [joinDot] using congrArg (c :: ·) this
        | cons q qs =>
          show joinDot ((c :: p) :: q :: qs) = c :: rest
          have : joinDot (p :: q :: qs) = rest := by rw [← hsp]; exact ih
          simp only [joinDot] at this ⊢
          rw [← this]
          simp

/-- Splitting a wildcard domain `*.D` yields `*` followed by the labels of
`D`. -/
theorem splitDot_wildcard (rest : Str) :
    splitDot ('*' :: '.' :: rest) = ['*'] :: splitDot rest := by
  simp [splitDot, splitOnChar]

/-- The parent of a wildcard domain string `*.D` is `D` itself. -/
theorem parentDomain_wildcard (rest : Str) :
    parentDomain ('*' :: '.' :: rest) = rest := by
  simp only [parentDomain, splitDot_wildcard]
  simpa [splitDot] using joinDot_splitOnDot rest

/-! ## Routing entries and entry lookup (`ProxyEntry`, `findProxyEntry`) -/

/-- An opaque TLS context handle (`SecureContext` in the source). -/
abbrev Ctx := Nat

/-- The parsed components of `entry.target` that the forwarder reads
(`targetUrl.protocol` / `.hostname` / `.port`, src/index.ts:310,323).
`port` is empty when the URL carries no explicit port. -/
structure Target where
  protocol : Str
  hostname : Str
  port : Str
deriving DecidableEq

/-- A routing entry (`ProxyEntry`, src/index.ts:22-37).  Optional string
fields default to the empty string exactly as in the source; `target` is
`none` when the entry was added without one (`MinimalProxyEntry`). -/
structure ProxyEntry where
  domain : Str
  target : Option Target := none
  authorization : Str := []
  redirectToHttps : Bool := false
  redirectToUrl : Str := []
  redirectToDomain : Str := []
  headers : Str := []
  path : Str := []
  cors : Bool := false
  preserveHost : Bool := false
deriving DecidableEq

/-- Model of `p.domain.startsWith('*.')` together with `p.domain.slice(2)`:
returns the part after `*.` when the domain is a wildcard. -/
def wildcardRest : Str → Option Str
  | '*' :: '.' :: rest => some rest
  | _ => none

/-- The domain filter of `findProxyEntry` (src/index.ts:387-392):
`p.domain === host || (p.domain.startsWith('*.') &&
(p.domain.slice(2) === parent(host) || p.domain.slice(2) === host))`. -/
def domainEligible (host : Str) (p : ProxyEntry) : Bool :=
  decide (p.domain = host) ||
    (match wildcardRest p.domain with
     | some rest => decide (rest = parentDomain host) || decide (rest = host)
     | none => false)

/-- The path filter of `findProxyEntry` (src/index.ts:406):
`p.path && (requestPath === p.path || requestPath.startsWith(p.path + '/'))`. -/
def pathSelects (requestPath : Str) (p : ProxyEntry) : Bool :=
  !p.path.isEmpty &&
    (decide (requestPath = p.path) || (p.path ++ ['/']).isPrefixOf requestPath)

/-- Model of `findProxyEntry` (src/index.ts:382-410).  `host` is the lowercased,
port-stripped request host (`originlUrl.hostname`) and `requestPath` the
pathname of the request URL; both extractions happen at the call sites and
are modelled there. -/
def findProxyEntry (proxies : List ProxyEntry) (host requestPath : Str) :
    Option ProxyEntry :=
  let byDomain := proxies.filter (domainEligible host)
  if byDomain.length = 1 then byDomain.head?
  else
    match byDomain.find? (pathSelects requestPath) with
    | some p => some p
    | none => byDomain.find? (fun p => p.path.isEmpty)

/-- Domain eligibility as the specification words it (claim C3): a
non-wildcard domain is eligible iff it equals the host; a wildcard `*.D`
is eligible iff `D` equals the host or the host with its first label
removed. -/
def eligibleSpec (host : Str) (p : ProxyEntry) : Bool :=
  match wildcardRest p.domain with
  | some rest => decide (rest = host) || decide (rest = parentDomain host)
  | none => decide (p.domain = host)

/-- Entry lookup as the specification words it (claim C2), built on the
spec's wording of domain eligibility. -/
def findProxyEntrySpec (proxies : List ProxyEntry) (host requestPath : Str) :
    Option ProxyEntry :=
  let eligible := proxies.filter (eligibleSpec host)
  if eligible.length = 1 then eligible.head?
  else
    match eligible.find? (pathSelects requestPath) with
    | some p => some p
    | none => eligible.find? (fun p => p.path.isEmpty)

theorem wildcardRest_eq_some {d rest : Str} (h : wildcardRest d = some rest) :
    d = '*' :: '.' :: rest := by
  unfold wildcardRest at h
  split at h
  · rename_i r
    injection h with h2
    rw [h2]
  · exact absurd h (by simp)

theorem eligible_eq (host : Str) (p : ProxyEntry) :
    domainEligible host p = eligibleSpec host p := by
  unfold domainEligible eligibleSpec
  cases hw : wildcardRest p.domain with
  | none => simp
  | some rest =>
    have hdom : p.domain = '*' :: '.' :: rest := wildcardRest_eq_some hw
    by_cases hh : p.domain = host
    · have hp : rest = parentDomain host := by
        rw [← hh, hdom, parentDomain_wildcard]
      simp [hh, ← hp]
    · simp [hh, Bool.or_comm]

/-- C3: For every routing entry and every (lowercased, port-stripped)
request host `h`: an entry whose domain does not begin with `*.` is
domain-eligible iff its domain equals `h` exactly; an entry whose domain is
of the form `*.D` is domain-eligible iff `D` equals `h` or `D` equals `h`
with its first dot-separated label removed. -/
theorem c3_domain_eligibility (host : Str) (p : ProxyEntry) :
    domainEligible host p = eligibleSpec host p :=
  eligible_eq host p

/-- C2: For every request host and request path, entry lookup returns the
unique domain-eligible entry when exactly one exists, regardless of its
path attribute; otherwise the first domain-eligible entry in insertion
order whose path is set and either equals the request path or is a prefix
of it followed by `/`; otherwise the first domain-eligible entry in
insertion order with no path; otherwise no match. -/
theorem c2_entry_lookup (proxies : List ProxyEntry) (host requestPath : Str) :
    findProxyEntry proxies host requestPath =
      findProxyEntrySpec proxies host requestPath := by
  unfold findProxyEntry findProxyEntrySpec
  rw [List.filter_congr (fun p _ => eligible_eq host p)]

/-! ## Certificate store (`loadCertificates`, `findRootDomain`) -/

/-- The certificate map `this.certs`, in assignment order
(`Record<string, SecureContext>`, src/index.ts:65). -/
abbrev CertMap := List (Str × Ctx)

/-- Model of `certs[key]` on the certificate map. -/
def lookupCert (m : CertMap) (k : Str) : Option Ctx :=
  (m.find? (fun e => decide (e.1 = k))).map Prod.snd

/-- Outcome of one `loadCertificates()` run (src/index.ts:350-373).
`certs` is the final value of `this.certs`; `failed` is the domain whose
`loadCertificate` call rejected, if any (the rejection propagates out of
`loadCertificates`); `errorEvents` records every payload emitted on the
`error` event channel during the run. -/
structure ReloadResult where
  certs : CertMap
  failed : Option Str
  errorEvents : List Str
deriving DecidableEq

/-- The `for (const rootDomain of folders)` loop of `loadCertificates`
(src/index.ts:370-372): each directory's context is assigned into the map;
a rejected `loadCertificate` (modelled as `none`) escapes the loop at once.
No event is emitted on any channel in this loop. -/
def loadLoop (acc : CertMap) : List (Str × Option Ctx) → ReloadResult
  | [] => ⟨acc, none, []⟩
  | (d, some c) :: rest => loadLoop (acc ++ [(d, c)]) rest
  | (d, none) :: _ => ⟨acc, some d, []⟩

/-- Model of `loadCertificates` (src/index.ts:350-373).  `loads` pairs each direct
subdirectory name of `certificatesFolder` (in `readdir` order) with the
result of `loadCertificate` on it (`none` models a rejected read).
`this.certs` is reset to a fresh empty map before anything else
(`const certs = (this.certs = {})`), even when `httpsPort` is `0`. -/
def loadCertificates (httpsPort : Nat) (folderExists : Bool)
    (loads : List (Str × Option Ctx)) : ReloadResult :=
  if httpsPort = 0 then ⟨[], none, []⟩
  else loadLoop [] (if folderExists then loads else [])

/-- The successive values held by `this.certs` while the loop of
`loadCertificates` runs over successfully loading directories: the map is
cleared first and then grows by one binding per directory, in place. -/
def loopStates (acc : CertMap) : List (Str × Ctx) → List CertMap
  | [] => []
  | (d, c) :: rest => (acc ++ [(d, c)]) :: loopStates (acc ++ [(d, c)]) rest

/-- All values of `this.certs` observable by a concurrent certificate
lookup from the moment `reload()` starts until it finishes (every `await`
in the loop is a suspension point at which a TLS handshake may read the
map). -/
def reloadStates (loads : List (Str × Ctx)) : List CertMap :=
  [] :: loopStates [] loads

theorem loadLoop_append (pre : List (Str × Ctx)) (d : Str)
    (post : List (Str × Option Ctx)) (acc : CertMap) :
    loadLoop acc (pre.map (fun q => (q.1, some q.2)) ++ (d, none) :: post) =
      ⟨acc ++ pre, some d, []⟩ := by
  induction pre generalizing acc with
  | nil => simp [loadLoop]
  | cons q rest ih =>
    simp only [List.map_cons, List.cons_append, loadLoop]
    rw [show (List.map (fun q => (q.1, some q.2)) rest).append ((d, none) :: post) =
      List.map (fun (q : Str × Ctx) => (q.1, some q.2)) rest ++ (d, none) :: post from rfl]
    rw [ih (acc ++ [(q.1, q.2)])]
    simp

/-- C4 counterexample: with directories `a.com`, `b.com`, `c.com` where the
certificate files of `b.com` fail to read, `loadCertificates` emits nothing
on the `error` channel, never loads `c.com`, and the reload is aborted by
the failure — all three contrary to the claim. -/
theorem c4_counterexample :
    (loadCertificates 443 true
        [(str "a.com", some 1), (str "b.com", none), (str "c.com", some 2)]).errorEvents
        = [] ∧
    lookupCert (loadCertificates 443 true
        [(str "a.com", some 1), (str "b.com", none), (str "c.com", some 2)]).certs
        (str "c.com") = none ∧
    (loadCertificates 443 true
        [(str "a.com", some 1), (str "b.com", none), (str "c.com", some 2)]).failed
        = some (str "b.com") := by
  refine ⟨rfl, by decide, rfl⟩

/-- C4 (amended): a failure to load the certificate or key files of one
domain subdirectory makes `loadCertificates` reject with that domain's
error: the domains read before it are already in the (freshly swapped-in)
map, the remaining subdirectories are not loaded at all, and nothing is
emitted on the `error` event channel. -/
theorem c4_cert_failure_aborts_reload (httpsPort : Nat)
    (pre : List (Str × Ctx)) (d : Str) (post : List (Str × Option Ctx))
    (hport : httpsPort ≠ 0) :
    loadCertificates httpsPort true
        (pre.map (fun q => (q.1, some q.2)) ++ (d, none) :: post) =
      ⟨pre, some d, []⟩ := by
  unfold loadCertificates
  rw [if_neg hport, if_pos rfl]
  simpa using loadLoop_append pre d post []

/-- C4 witness: instantiation of `c4_cert_failure_aborts_reload` at one
concrete folder listing. -/
theorem c4_witness :
    loadCertificates 443 true
        [(str "one.net", some 7), (str "two.net", none)] =
      ⟨[(str "one.net", 7)], some (str "two.net"), []⟩ :=
  c4_cert_failure_aborts_reload 443 [(str "one.net", 7)] (str "two.net") []
    (by decide)

theorem loopStates_mem (l : List (Str × Ctx)) (acc : CertMap) (s : CertMap) :
    s ∈ loopStates acc l ↔
      ∃ k, 1 ≤ k ∧ k ≤ l.length ∧ s = acc ++ l.take k := by
  induction l generalizing acc with
  | nil =>
    simp only [loopStates, List.not_mem_nil, List.length_nil, false_iff]
    rintro ⟨k, hk1, hk2, -⟩
    omega
  | cons q rest ih =>
    obtain ⟨d, c⟩ := q
    simp only [loopStates, List.mem_cons, ih, List.length_cons]
    constructor
    · rintro (rfl | ⟨k, hk1, hk2, rfl⟩)
      · exact ⟨1, le_refl 1, by omega, by simp⟩
      · refine ⟨k + 1, by omega, by omega, ?_⟩
        simp [List.take_succ_cons]
    · rintro ⟨k, hk1, hk2, rfl⟩
      match k, hk1 with
      | 1, _ => exact Or.inl (by simp)
      | (j + 2), _ =>
        refine Or.inr ⟨j + 1, by omega, by omega, ?_⟩
        simp [List.take_succ_cons]

/-- C5 counterexample: reloading from old map `{z.org ↦ 9}` to new map
`{a.com ↦ 1, b.com ↦ 2}` passes through the observable state `{}` (the map
is cleared before the first directory is read), which is neither the old
nor the new map.  Earlier, `{a.com ↦ 1}` is a second such state. -/
theorem c5_counterexample :
    ([] : CertMap) ∈ reloadStates [(str "a.com", 1), (str "b.com", 2)] ∧
    ([] : CertMap) ≠ [(str "z.org", 9)] ∧
    ([] : CertMap) ≠ [(str "a.com", 1), (str "b.com", 2)] := by
  refine ⟨by simp [reloadStates], by decide, by decide⟩

/-- C5 (amended): `reload()` does not build the new map aside and swap it
in; it first publishes a fresh empty map and then grows it in place, one
domain per `await`.  The states of `this.certs` that a concurrent
certificate lookup can observe during a reload are therefore exactly the
prefixes of the new map in directory order — the empty map and every
partially constructed map included. -/
theorem c5_reload_observable_states (loads : List (Str × Ctx)) (s : CertMap) :
    s ∈ reloadStates loads ↔ ∃ k, k ≤ loads.length ∧ s = loads.take k := by
  simp only [reloadStates, List.mem_cons, loopStates_mem]
  constructor
  · rintro (rfl | ⟨k, hk1, hk2, rfl⟩)
    · exact ⟨0, Nat.zero_le _, rfl⟩
    · exact ⟨k, hk2, by simp⟩
  · rintro ⟨k, hk, rfl⟩
    match k with
    | 0 => exact Or.inl rfl
    | (j + 1) => exact Or.inr ⟨j + 1, by omega, hk, by simp⟩

/-- The own-property names of `Object.prototype` in Node.js.  The
certificate map is a plain `{}` object, so `certs[name]` for any of these
names yields the inherited function or object — all of them truthy. -/
def protoProps : List Str :=
  [str "constructor", str "hasOwnProperty", str "isPrototypeOf",
   str "propertyIsEnumerable", str "toString", str "toLocaleString",
   str "valueOf", str "__defineGetter__", str "__defineSetter__",
   str "__lookupGetter__", str "__lookupSetter__", str "__proto__"]

/-- A truthy value that the property access `certs[key]` can produce on
the plain-object certificate map: an assigned `SecureContext` binding, or
a member inherited from `Object.prototype`. -/
inductive CertValue where
  | ctx (c : Ctx)
  | protoMember (name : Str)
deriving DecidableEq

/-- Model of the property access `certs[key]` (src/index.ts:436): an own
(assigned) binding shadows the prototype; otherwise the truthy
`Object.prototype` members are still reachable through the prototype
chain; any other key yields `undefined`, which is falsy. -/
def certAccess (m : CertMap) (k : Str) : Option CertValue :=
  match lookupCert m k with
  | some c => some (.ctx c)
  | none => if protoProps.contains k then some (.protoMember k) else none

/-- The `while (parts.length)` loop of `findRootDomain`
(src/index.ts:433-441): probe `certs[...]` at the join of the current
label list, else shift off the first label and continue. -/
def probeParts (certs : CertMap) : List Str → Option CertValue
  | [] => none
  | p :: rest =>
    match certAccess certs (joinDot (p :: rest)) with
    | some v => some v
    | none => probeParts certs rest

/-- Model of `findRootDomain` (src/index.ts:429-444):
`domain.split('/')[0].split('.')`, then the probing loop. -/
def findRootDomain (certs : CertMap) (domain : Str) : Option CertValue :=
  probeParts certs (splitDot (domain.takeWhile (fun c => !(c == '/'))))

/-- The non-empty tails of a list, longest first. -/
def fullTails {α : Type} : List α → List (List α)
  | [] => []
  | p :: rest => (p :: rest) :: fullTails rest

/-- The dot-separated suffixes of a name, longest first: the name itself,
then the name with its first label removed, and so on. -/
def dotSuffixes (name : Str) : List Str :=
  (fullTails (splitDot name)).map joinDot

theorem probeParts_eq_findSome (certs : CertMap) (parts : List Str) :
    probeParts certs parts =
      ((fullTails parts).map joinDot).findSome? (certAccess certs) := by
  induction parts with
  | nil => rfl
  | cons p rest ih =>
    simp only [probeParts, fullTails, List.map_cons, List.findSome?_cons]
    cases certAccess certs (joinDot (p :: rest)) with
    | none => exact ih
    | some v => rfl

theorem joinDot_cons_lt (p : Str) (rest : List Str) (h : rest ≠ []) :
    (joinDot rest).length < (joinDot (p :: rest)).length := by
  match rest, h with
  | q :: qs, _ =>
    show (joinDot (q :: qs)).length < (p ++ '.' :: joinDot (q :: qs)).length
    simp only [List.length_append, List.length_cons]
    omega

theorem mem_fullTails_join_le (parts : List Str) (t : Str)
    (ht : t ∈ (fullTails parts).map joinDot) :
    t.length ≤ (joinDot parts).length := by
  induction parts with
  | nil => simp [fullTails] at ht
  | cons p rest ih =>
    simp only [fullTails, List.map_cons, List.mem_cons] at ht
    rcases ht with rfl | ht
    · exact le_refl _
    · rcases List.eq_nil_or_concat rest with rfl | ⟨-, -, -⟩
      · simp [fullTails] at ht
      · exact le_of_lt (lt_of_le_of_lt (ih ht)
          (joinDot_cons_lt p rest (by rintro rfl; simp [fullTails] at ht)))

theorem probeParts_longest (certs : CertMap) (parts : List Str) (v : CertValue)
    (h : probeParts certs parts = some v) :
    ∃ s ∈ (fullTails parts).map joinDot, certAccess certs s = some v ∧
      ∀ t ∈ (fullTails parts).map joinDot,
        t.length > s.length → certAccess certs t = none := by
  induction parts with
  | nil => simp [probeParts] at h
  | cons p rest ih =>
    simp only [probeParts] at h
    cases hl : certAccess certs (joinDot (p :: rest)) with
    | some v0 =>
      rw [hl] at h
      injection h with h
      subst h
      refine ⟨joinDot (p :: rest), by simp [fullTails], hl, ?_⟩
      intro t ht hgt
      exact absurd hgt
        (not_lt_of_le (mem_fullTails_join_le (p :: rest) t ht))
    | none =>
      rw [hl] at h
      obtain ⟨s, hs, hsc, hmax⟩ := ih h
      refine ⟨s, by simp only [fullTails, List.map_cons, List.mem_cons]; exact Or.inr hs,
        hsc, ?_⟩
      intro t ht hgt
      simp only [fullTails, List.map_cons, List.mem_cons] at ht
      rcases ht with rfl | ht
      · exact hl
      · exact hmax t ht hgt

theorem probeParts_none_iff (certs : CertMap) (parts : List Str) :
    probeParts certs parts = none ↔
      ∀ s ∈ (fullTails parts).map joinDot, certAccess certs s = none := by
  rw [probeParts_eq_findSome]
  exact List.findSome?_eq_none_iff

theorem takeWhile_no_slash (name : Str) (h : '/' ∉ name) :
    name.takeWhile (fun c => !(c == '/')) = name := by
  induction name with
  | nil => rfl
  | cons c rest ih =>
    simp only [List.mem_cons, not_or] at h
    have hc : (c == '/') = false := by
      exact beq_eq_false_iff_ne.mpr (fun hcc => h.1 hcc.symm)
    simp [List.takeWhile_cons, hc, ih h.2]

/-- C6 counterexample: the SNI name `constructor` (a legal DNS label) has
its only dot-separated suffix, `constructor`, bound to no certificate —
the map is empty — yet `findRootDomain` reports a match: `certs[...]`
reaches the truthy `Object.prototype.constructor` through the prototype
chain of the plain `{}` map, contradicting the claim's "no match iff no
suffix is a key". -/
theorem c6_counterexample :
    findRootDomain [] (str "constructor") =
      some (CertValue.protoMember (str "constructor")) ∧
    dotSuffixes (str "constructor") = [str "constructor"] ∧
    lookupCert [] (str "constructor") = none := by
  refine ⟨by decide, by decide, rfl⟩

/-- The amended property of the SNI certificate lookup (claim C6): the
result probes `certs[...]` at the dot-separated suffixes of the name from
longest to shortest, returns the value at the longest suffix at which the
access is truthy — the bound context for an assigned key, an inherited
`Object.prototype` member otherwise — and is `none` exactly when every
suffix is neither an assigned key nor an `Object.prototype` property
name. -/
def rootDomainLookupSpec (certs : CertMap) (name : Str) : Prop :=
  findRootDomain certs name = (dotSuffixes name).findSome? (certAccess certs)
  ∧ (findRootDomain certs name = none ↔
      ∀ s ∈ dotSuffixes name, certAccess certs s = none)
  ∧ ∀ v, findRootDomain certs name = some v →
      ∃ s ∈ dotSuffixes name, certAccess certs s = some v ∧
        ∀ t ∈ dotSuffixes name, t.length > s.length → certAccess certs t = none

/-- C6 (amended): For every SNI name (a host name, containing no `/`) and
every certificate map, certificate lookup probes the dot-separated
suffixes of the name from longest to shortest and returns the value of the
first truthy `certs[...]` access — the context bound to the longest
suffix that is an assigned key, except that a suffix that is an
`Object.prototype` property name (`constructor`, `toString`, ...) also
probes truthy and yields the inherited member instead of a certificate;
no match is reported iff every suffix is neither an assigned key nor such
a property name. -/
theorem c6_certificate_lookup (certs : CertMap) (name : Str)
    (h : '/' ∉ name) : rootDomainLookupSpec certs name := by
  have hname : findRootDomain certs name = probeParts certs (splitDot name) := by
    unfold findRootDomain
    rw [takeWhile_no_slash name h]
  have hsuf : dotSuffixes name = (fullTails (splitDot name)).map joinDot := rfl
  refine ⟨?_, ?_, ?_⟩
  · rw [hname, hsuf]
    exact probeParts_eq_findSome certs (splitDot name)
  · rw [hname, hsuf]
    exact probeParts_none_iff certs (splitDot name)
  · intro v hv
    rw [hname] at hv
    rw [hsuf]
    exact probeParts_longest certs (splitDot name) v hv

/-- C6 witness: the amended lookup property instantiated at SNI name
`sub.example.com` over a map holding a certificate for `example.com` only
(the spec's subdomain-fallback scenario). -/
theorem c6_witness :
    rootDomainLookupSpec [(str "example.com", 1)] (str "sub.example.com") :=
  c6_certificate_lookup [(str "example.com", 1)] (str "sub.example.com")
    (by decide)

/-! ## Request pipeline (`matchProxy`, `createRequest`, `handleError`) -/

/-- A header map with lowercased keys, as Node delivers `req.headers` and
as `setHeader` stores keys after case-normalization. -/
abbrev Headers := List (Str × Str)

/-- Read a header (`req.headers[k]`): `none` when the header is absent. -/
def getHeader (hs : Headers) (k : Str) : Option Str :=
  (hs.find? (fun e => decide (e.1 = k))).map Prod.snd

/-- Model of `setHeader(k, v)`: replaces any existing value for the key. -/
def setHeader (hs : Headers) (k v : Str) : Headers :=
  hs.filter (fun e => !decide (e.1 = k)) ++ [(k, v)]

/-- Modelled from the spec: JavaScript `String.prototype.trim` strips
whitespace from both ends; the ASCII whitespace characters suffice for the
header values in play. -/
def isWs (c : Char) : Bool :=
  c == ' ' || c == '\t' || c == '\n' || c == '\r'

/-- Modelled from the spec: JavaScript `s.trim()`. -/
def trim (s : Str) : Str :=
  ((s.dropWhile isWs).reverse.dropWhile isWs).reverse

/-- Model of JavaScript `s.replace(pat, '')` with a non-empty string
pattern: only the FIRST occurrence of the pattern is removed. -/
def removeFirst (pat : Str) : Str → Str
  | [] => []
  | c :: rest =>
    if pat.isPrefixOf (c :: rest) then (c :: rest).drop pat.length
    else c :: removeFirst pat rest

/-- The authorization-header normalization of `createRequest`
(src/index.ts:258): `(req.headers.authorization || '').replace('Basic', '').trim()`. -/
def codeStrip (h : Str) : Str := trim (removeFirst (str "Basic") h)

/-- The normalization as claim C7 words it: strip a LEADING `Basic` token
and surrounding whitespace. -/
def specStrip (h : Str) : Str :=
  let t := trim h
  trim (if (str "Basic").isPrefixOf t then t.drop (str "Basic").length else t)

/-- Disposition of an upstream transport error: the events emitted, the
status code written downstream (if any), and the exception escaping
`handleError` (if any). -/
structure ErrorDisposition where
  events : List Str
  status : Option Nat
  threw : Option Str
deriving DecidableEq

/-- Model of `handleError` (src/index.ts:467-484): always emit
`proxyerror` first; for `ECONNREFUSED`/`ECONNRESET` call
`res.writeHead(502)` unconditionally — when the response headers were
already sent this throws `ERR_HTTP_HEADERS_SENT`, so no status is written
and the exception escapes the handler; otherwise write 500 only when the
response headers have not been sent yet (that `writeHead` never throws). -/
def handleError (code : Str) (headersSent : Bool) : ErrorDisposition :=
  if decide (code = str "ECONNREFUSED") || decide (code = str "ECONNRESET") then
    if headersSent then
      ⟨[str "proxyerror"], none, some (str "ERR_HTTP_HEADERS_SENT")⟩
    else ⟨[str "proxyerror"], some 502, none⟩
  else if !headersSent then ⟨[str "proxyerror"], some 500, none⟩
  else ⟨[str "proxyerror"], none, none⟩

/-- C8 counterexample: an `ECONNRESET` arriving after the response headers
were sent — the canonical reset-mid-response case — produces no 502: the
unconditional `res.writeHead(502)` throws `ERR_HTTP_HEADERS_SENT` instead,
contrary to the claim's unconditional 502 clause.  Before headers are
sent, the 502 is written as claimed. -/
theorem c8_counterexample :
    (handleError (str "ECONNRESET") true).status = none ∧
    (handleError (str "ECONNRESET") true).threw =
      some (str "ERR_HTTP_HEADERS_SENT") ∧
    (handleError (str "ECONNRESET") false).status = some 502 := by
  refine ⟨by decide, by decide, by decide⟩

/-- The error mapping as amended claim C8 words it. -/
def handleErrorSpec (code : Str) (headersSent : Bool) : ErrorDisposition :=
  { events := [str "proxyerror"]
    status :=
      if code = str "ECONNREFUSED" ∨ code = str "ECONNRESET" then
        (if headersSent then none else some 502)
      else if headersSent = false then some 500
      else none
    threw :=
      if (code = str "ECONNREFUSED" ∨ code = str "ECONNRESET") ∧
          headersSent = true then
        some (str "ERR_HTTP_HEADERS_SENT")
      else none }

/-- C8 (amended): For every transport error raised on the upstream
request: if the error code is `ECONNREFUSED` or `ECONNRESET` and response
headers have not yet been sent, the downstream response is 502 with empty
body; if the code is `ECONNREFUSED`/`ECONNRESET` and headers were already
sent, `res.writeHead(502)` throws `ERR_HTTP_HEADERS_SENT` and no new
status is written; otherwise, if headers have not yet been sent, the
response is 500; otherwise no new status is written; and in every case
the error is emitted on the `proxyerror` event channel (the emit precedes
the throw). -/
theorem c8_error_mapping (code : Str) (headersSent : Bool) :
    handleError code headersSent = handleErrorSpec code headersSent := by
  unfold handleError handleErrorSpec
  by_cases h1 : code = str "ECONNREFUSED" ∨ code = str "ECONNRESET"
  · rcases h1 with h | h <;> cases headersSent <;> simp [h]
  · push_neg at h1
    cases headersSent <;> simp [h1.1, h1.2]

/-- An incoming HTTP request as the dispatcher sees it. -/
structure Request where
  method : Str
  url : Str
  headers : Headers
deriving DecidableEq

/-- The upstream request built by the forwarder: the client chosen by the
resolved scheme (`targetUrl.protocol`), the `hostname[:port]` of the
target, and the rewritten header map.  (The upstream pathname is not
modelled; no claim refers to it.) -/
structure UpstreamReq where
  protocol : Str
  targetHost : Str
  headers : Headers
deriving DecidableEq

/-- Everything `onRequest` can do with a request (src/index.ts:127-153,
230-328): each constructor records the observable response shape, the
fallback call, the built upstream request, or an exception escaping
`onRequest`. -/
inductive Outcome where
  | fallbackInvoked
  | notFound (status : Nat) (message : Str)
  | unauthorized (status : Nat) (challenge : Str)
  | redirectResolved (status : Nat) (message scheme host path : Str)
  | redirectLiteral (status : Nat) (message location : Str)
  | corsPreflight (status : Nat)
  | forward (u : UpstreamReq)
  | thrown (msg : Str)
deriving DecidableEq

/-- Model of the origin-host pick
`[req.headers['x-forwarded-for'], req.headers.host].filter(Boolean)[0]`
(`matchProxy`, src/index.ts:221): the first header of the two that is
present AND non-empty. -/
def originHostOf (hs : Headers) : Option Str :=
  ((([getHeader hs (str "x-forwarded-for"), getHeader hs (str "host")]).filterMap
      id).filter (fun s => !s.isEmpty)).head?

/-- Modelled from the spec: `new URL('http://' + host).hostname` for a
`host[:port]` value — the spec states "the incoming host is lowercased
before comparison; trailing `:port` is stripped" (§4.1). -/
def hostnameOf (h : Str) : Str :=
  (h.takeWhile (fun c => !(c == ':'))).map Char.toLower

/-- Modelled from the spec: the `pathname` of a request-target resolved
against a base (§4.1 "`url` is treated as an absolute path reference whose
`pathname` is used") — the part before any query or fragment. -/
def pathOf (url : Str) : Str :=
  url.takeWhile (fun c => !(c == '?' || c == '#'))

/-- Modelled from the spec: whether `new URL(s)` succeeds — the WHATWG
parser requires a scheme: an ASCII-alphabetic first character, then
scheme characters, then `:`. -/
def parseableUrl (s : Str) : Bool :=
  let scheme := s.takeWhile (fun c => !(c == ':'))
  !scheme.isEmpty && (scheme.headD ' ').isAlpha &&
    scheme.all (fun c => c.isAlphanum || c == '+' || c == '-' || c == '.') &&
    decide (scheme.length < s.length)

/-- One `key: value` part of `entry.headers` (src/index.ts:375-380):
`header.split(':', 2)` keeps the first two `:`-separated pieces; when the
part has no `:` at all, `value` is `undefined` and `value.trim()` throws. -/
def splitHeaderPart (part : Str) : Option (Str × Str) :=
  let k := part.takeWhile (fun c => !(c == ':'))
  match part.dropWhile (fun c => !(c == ':')) with
  | [] => none
  | _ :: tail => some (trim k, trim (tail.takeWhile (fun c => !(c == ':'))))

/-- Model of `setExtraHeaders` (src/index.ts:375-380): split `entry.headers` on
`|` and set each trimmed key/value; `none` models the `TypeError` thrown
on a part without a colon. -/
def extraHeadersOf (s : Str) : Option (List (Str × Str)) :=
  (splitOnChar '|' s).mapM splitHeaderPart

/-- Model of `isSsl ? 'https' : 'http'` (src/index.ts:320). -/
def protoOf (isSsl : Bool) : Str :=
  if isSsl then str "https" else str "http"

/-- The forward step of `createRequest` (src/index.ts:300-327): build the
upstream request, copy all incoming headers, apply `entry.headers`, then
either preserve the incoming host (also setting `x-forwarded-for`,
`x-forwarded-proto` and `forwarded`) or set `Host` to the target's
`hostname[:port]`.  `new URL(req.url.slice(1), undefined)` throws when the
entry has no target. -/
def forwardStage (e : ProxyEntry) (req : Request) (isSsl : Bool) : Outcome :=
  match e.target with
  | none => .thrown (str "ERR_INVALID_URL")
  | some t =>
    let targetHost := t.hostname ++ (if t.port.isEmpty then [] else ':' :: t.port)
    match (if e.headers.isEmpty then some [] else extraHeadersOf e.headers) with
    | none => .thrown (str "TypeError")
    | some extras =>
      let base := extras.foldl (fun hs kv => setHeader hs kv.1 kv.2) req.headers
      let final :=
        if e.preserveHost then
          let rh := (getHeader req.headers (str "host")).getD []
          setHeader
            (setHeader
              (setHeader (setHeader base (str "host") rh)
                (str "x-forwarded-for") rh)
              (str "x-forwarded-proto") (protoOf isSsl))
            (str "forwarded")
            (str "host=" ++ rh ++ str ";proto=" ++ protoOf isSsl)
        else setHeader base (str "host") targetHost
      .forward ⟨t.protocol, targetHost, final⟩

/-- The policy stages of `createRequest` after the authorization gate
(src/index.ts:269-327): redirect-to-domain, redirect-to-url,
redirect-to-https, CORS preflight (where `new URL(req.headers.origin)` in
`setCorsHeaders` throws on an unparseable origin), then forward. -/
def afterAuth (e : ProxyEntry) (req : Request) (isSsl : Bool) (oh : Str) :
    Outcome :=
  if !e.redirectToDomain.isEmpty then
    .redirectResolved 302 (str "Moved somewhere else") (str "https")
      e.redirectToDomain req.url
  else if !e.redirectToUrl.isEmpty then
    .redirectLiteral 302 (str "Moved somewhere else") e.redirectToUrl
  else if e.redirectToHttps && !isSsl then
    .redirectResolved 301 (str "HTTPS is better") (str "https") oh req.url
  else if decide (req.method = str "OPTIONS") && e.cors &&
      !((getHeader req.headers (str "origin")).getD []).isEmpty then
    if parseableUrl ((getHeader req.headers (str "origin")).getD []) then
      .corsPreflight 204
    else .thrown (str "ERR_INVALID_URL")
  else forwardStage e req isSsl

/-- The authorization gate of `createRequest` (src/index.ts:257-267),
then the rest of the pipeline. -/
def applyEntry (e : ProxyEntry) (req : Request) (isSsl : Bool) (oh : Str) :
    Outcome :=
  if !e.authorization.isEmpty &&
      !decide (codeStrip ((getHeader req.headers (str "authorization")).getD [])
        = e.authorization) then
    .unauthorized 401 (str "Basic realm=\"Y u no password\"")
  else afterAuth e req isSsl oh

/-- Model of `onRequest` (src/index.ts:127-134) with `matchProxy`
(src/index.ts:220-228) and `createRequest` (src/index.ts:230-328): pick
the origin host, look up the entry by its hostname and the request
pathname, fall back / 404 when nothing matched, and otherwise run the
policy pipeline. -/
def runPipeline (fallbackPresent : Bool) (proxies : List ProxyEntry)
    (req : Request) (isSsl : Bool) : Outcome :=
  match originHostOf req.headers with
  | none => if fallbackPresent then .fallbackInvoked else .notFound 404 (str "Not found")
  | some oh =>
    match findProxyEntry proxies (hostnameOf oh) (pathOf req.url) with
    | none => if fallbackPresent then .fallbackInvoked else .notFound 404 (str "Not found")
    | some e => applyEntry e req isSsl oh

/-! ### C1 — forwarded headers on the upstream request -/

/-- The entry of the repository's "plain proxy" test: a target and no
`preserveHost`. -/
def c1Entry : ProxyEntry :=
  { domain := str "example.com"
    target := some ⟨str "http:", str "127.0.0.1", str "9000"⟩ }

/-- Request `GET /test` with `Host: example.com` over plaintext. -/
def c1Req : Request :=
  ⟨str "GET", str "/test", [(str "host", str "example.com")]⟩

/-- The upstream request the code actually builds for `c1Req`: only `Host`
is rewritten. -/
def c1Upstream : UpstreamReq :=
  ⟨str "http:", str "127.0.0.1:9000",
    [(str "host", str "127.0.0.1:9000")]⟩

/-- C1: the claim (and the repository's own test `should proxy an HTTP
request`) requires `X-Forwarded-For`, `X-Forwarded-Proto` and `Forwarded`
on every forwarded request, with `preserveHost` both true and false.  With
`preserveHost` false the code sets only `Host`: the three headers are
absent from the upstream request. -/
theorem c1_forwarded_headers_missing :
    runPipeline false [c1Entry] c1Req false = .forward c1Upstream ∧
    getHeader c1Upstream.headers (str "x-forwarded-for") = none ∧
    getHeader c1Upstream.headers (str "x-forwarded-proto") = none ∧
    getHeader c1Upstream.headers (str "forwarded") = none := by
  refine ⟨by decide, by decide, by decide, by decide⟩

/-! ### C7 — authorization header normalization -/

/-- An entry guarded by `authorization: "x"`. -/
def c7Entry : ProxyEntry :=
  { domain := str "example.com"
    target := some ⟨str "http:", str "up.local", []⟩
    authorization := str "x" }

/-- A request whose `Authorization` header is `xBasic`: `Basic` occurs,
but not as a leading token. -/
def c7Req : Request :=
  ⟨str "GET", str "/t",
    [(str "host", str "example.com"), (str "authorization", str "xBasic")]⟩

/-- The upstream request the code builds for `c7Req` after letting it
through the authorization gate. -/
def c7Upstream : UpstreamReq :=
  ⟨str "http:", str "up.local",
    [(str "authorization", str "xBasic"), (str "host", str "up.local")]⟩

/-- C7 counterexample: stripping a LEADING `Basic` token from `xBasic`
leaves `xBasic`, which differs from the entry's `authorization` value `x`,
so the claim requires a 401; but the code removes the FIRST occurrence of
the substring `Basic` anywhere, obtains `x`, and forwards the request. -/
theorem c7_counterexample :
    specStrip (str "xBasic") = str "xBasic" ∧
    ¬ specStrip (str "xBasic") = c7Entry.authorization ∧
    codeStrip (str "xBasic") = c7Entry.authorization ∧
    runPipeline false [c7Entry] c7Req false = .forward c7Upstream := by
  refine ⟨by decide, by decide, by decide, by decide⟩

/-- C7 (amended): for every matched entry with `authorization` set, the
request's `Authorization` header (empty string when absent) has the FIRST
occurrence of the substring `Basic` removed and the result trimmed of
surrounding whitespace; on mismatch the response is 401 with
`WWW-Authenticate: Basic realm="Y u no password"` and no later stage runs;
on equality the pipeline proceeds to the redirect checks. -/
theorem c7_auth_gate (e : ProxyEntry) (req : Request) (isSsl : Bool)
    (oh : Str) (hauth : e.authorization ≠ []) :
    (codeStrip ((getHeader req.headers (str "authorization")).getD [])
        ≠ e.authorization →
      applyEntry e req isSsl oh =
        .unauthorized 401 (str "Basic realm=\"Y u no password\"")) ∧
    (codeStrip ((getHeader req.headers (str "authorization")).getD [])
        = e.authorization →
      applyEntry e req isSsl oh = afterAuth e req isSsl oh) ∧
    codeStrip ((getHeader req.headers (str "authorization")).getD []) =
      trim (removeFirst (str "Basic")
        ((getHeader req.headers (str "authorization")).getD [])) := by
  have hne : e.authorization.isEmpty = false := by
    cases ha : e.authorization with
    | nil => exact absurd ha hauth
    | cons c t => rfl
  refine ⟨?_, ?_, rfl⟩
  · intro hmis
    unfold applyEntry
    simp [hne, hmis]
  · intro hmatch
    unfold applyEntry
    simp [hne, hmatch]

/-- Request with no `Authorization` header at all. -/
def c7WitnessReq : Request :=
  ⟨str "GET", str "/t", [(str "host", str "example.com")]⟩

/-- C7 witness: the amended gate applied at a concrete entry and a request
without credentials — the pipeline answers 401 with the challenge. -/
theorem c7_witness :
    applyEntry c7Entry c7WitnessReq false (str "example.com") =
      .unauthorized 401 (str "Basic realm=\"Y u no password\"") :=
  (c7_auth_gate c7Entry c7WitnessReq false (str "example.com")
    (by decide)).1 (by decide)

/-! ### C9 — exceptions escaping `onRequest` -/

/-- A CORS-enabled entry with a target. -/
def c9CorsEntry : ProxyEntry :=
  { domain := str "example.com"
    target := some ⟨str "http:", str "up.local", []⟩
    cors := true }

/-- An `OPTIONS` preflight whose `Origin` header is not a parseable URL. -/
def c9CorsReq : Request :=
  ⟨str "OPTIONS", str "/cors",
    [(str "host", str "example.com"), (str "origin", str "not a url")]⟩

/-- An entry with neither target nor any redirect field. -/
def c9BareEntry : ProxyEntry := { domain := str "example.com" }

/-- A plain GET for the bare entry. -/
def c9BareReq : Request :=
  ⟨str "GET", str "/x", [(str "host", str "example.com")]⟩

/-- C9: on both inputs the claim singles out, `onRequest` neither produces
a response nor invokes the fallback: `new URL(req.headers.origin)` in
`setCorsHeaders` and `new URL(req.url.slice(1), undefined)` in the forward
step throw a `TypeError` that escapes `onRequest` uncaught. -/
theorem c9_unhandled_exceptions :
    runPipeline false [c9CorsEntry] c9CorsReq false =
      .thrown (str "ERR_INVALID_URL") ∧
    runPipeline false [c9BareEntry] c9BareReq false =
      .thrown (str "ERR_INVALID_URL") := by
  refine ⟨by decide, by decide⟩

/-! ### C10 — x-forwarded-for precedence over Host -/

/-- An entry used to observe which host the router consulted. -/
def c10Entry : ProxyEntry :=
  { domain := str "example.com", redirectToHttps := true }

/-- A request CARRYING an `x-forwarded-for` header — with an empty value —
next to `Host: example.com`. -/
def c10Req : Request :=
  ⟨str "GET", str "/p",
    [(str "x-forwarded-for", []), (str "host", str "example.com")]⟩

/-- C10 counterexample: the request carries an `x-forwarded-for` header,
yet routing and the redirect-to-HTTPS `Location` use the `Host` header:
`filter(Boolean)` drops the ''-valued header, while the claim says the
`Host` header is consulted only when `x-forwarded-for` is ABSENT. -/
theorem c10_counterexample :
    getHeader c10Req.headers (str "x-forwarded-for") = some [] ∧
    runPipeline false [c10Entry] c10Req false =
      .redirectResolved 301 (str "HTTPS is better") (str "https")
        (str "example.com") (str "/p") ∧
    ¬ (str "example.com" = ([] : Str)) := by
  refine ⟨by decide, by decide, by decide⟩

/-- C10 (amended): whenever the request carries an `x-forwarded-for`
header with a NON-EMPTY value `v`, the origin host is `v`: the entry is
looked up under `hostnameOf v` and the rest of the pipeline (including the
redirect-to-HTTPS `Location` host) runs with origin host `v`, whatever the
`Host` header says.  The `Host` header is consulted only when
`x-forwarded-for` is absent or empty. -/
theorem c10_xff_precedence (fallbackPresent : Bool)
    (proxies : List ProxyEntry) (req : Request) (isSsl : Bool) (v : Str)
    (h1 : getHeader req.headers (str "x-forwarded-for") = some v)
    (h2 : v ≠ []) :
    originHostOf req.headers = some v ∧
    runPipeline fallbackPresent proxies req isSsl =
      (match findProxyEntry proxies (hostnameOf v) (pathOf req.url) with
       | none =>
         if fallbackPresent then .fallbackInvoked
         else .notFound 404 (str "Not found")
       | some e => applyEntry e req isSsl v) := by
  have hv : v.isEmpty = false := by
    cases v with
    | nil => exact absurd rfl h2
    | cons c t => rfl
  have hoh : originHostOf req.headers = some v := by
    unfold originHostOf
    rw [h1]
    cases getHeader req.headers (str "host") <;> simp [hv]
  refine ⟨hoh, ?_⟩
  unfold runPipeline
  rw [hoh]

/-- The entry of the C10 witness scenario. -/
def c10WitnessEntry : ProxyEntry :=
  { domain := str "fwd.example", redirectToHttps := true }

/-- A request whose `x-forwarded-for` names `fwd.example` while `Host`
names a different host. -/
def c10WitnessReq : Request :=
  ⟨str "GET", str "/q",
    [(str "x-forwarded-for", str "fwd.example"),
     (str "host", str "other.host")]⟩

/-- C10 witness: the precedence theorem applied at a concrete request —
routing keys on `fwd.example`, not on `other.host`. -/
theorem c10_witness :
    originHostOf c10WitnessReq.headers = some (str "fwd.example") ∧
    runPipeline false [c10WitnessEntry] c10WitnessReq false =
      (match findProxyEntry [c10WitnessEntry] (hostnameOf (str "fwd.example"))
          (pathOf c10WitnessReq.url) with
       | none => .notFound 404 (str "Not found")
       | some e => applyEntry e c10WitnessReq false (str "fwd.example")) :=
  c10_xff_precedence false [c10WitnessEntry] c10WitnessReq false
    (str "fwd.example") (by decide) (by decide)
